import Mathlib

/-!
Verification of the point-in-time interest-rate resolution and cost
calculation of the Interest_payments_comparison app (src/app.py).

Modelling conventions:
* Calendar dates are integers (days since 1970-01-01); the pandas
  `timedelta(days=7)` becomes subtraction of 7.
* A fetched pandas series is a list of (date, optional value) rows in the
  order the remote source delivers them (FRED delivers ascending dates,
  one row per date; where a theorem needs that fact it is an explicit
  sortedness hypothesis). A missing value (NaN) is `none`.
* Rate values and currency amounts are rationals.
* The remote client is a function from series id to its history, plus a
  flag saying whether remote calls currently raise (network/auth error);
  the `try/except` around each fetch becomes a test of that flag.
* Python functions returning a pair of two possibly-None components
  return a pair of two `Option`s, exactly as in the source.
-/

namespace InterestApp

/-- One fetched row: (observation date, possibly-missing value). -/
abbrev Obs := ℤ × Option ℚ

/-- A resolver result as returned by the helpers in src/app.py: a pair
(rate, date) where each component may independently be `None` in Python. -/
abbrev RateResult := Option ℚ × Option ℤ

/-- Model of the FRED client handed to the helpers: per-series published
history, and whether remote calls currently fail with an exception. -/
structure FredClient where
  series : String → List Obs
  fails : Bool

/-- `data.dropna()`: discard rows whose value is missing, keeping order. -/
def dropna (l : List Obs) : List (ℤ × ℚ) :=
  l.filterMap (fun p => p.2.map (fun v => (p.1, v)))

/-- `get_series(series_id, observation_start, observation_end)`: the rows of
the series whose dates lie in the closed range [a, b]. -/
def FredClient.get_series_range (c : FredClient) (series_id : String) (a b : ℤ) : List Obs :=
  (c.series series_id).filter (fun p => decide (a ≤ p.1) && decide (p.1 ≤ b))

/-- The historical comparison date `2025-04-01` as days since 1970-01-01. -/
def HISTORICAL_DATE : ℤ := 20179

/-- The rate series catalog `FRED_SERIES` of src/app.py. -/
def FRED_SERIES : List (String × String) :=
  [("3-Month Treasury Bill", "DGS3MO"),
   ("1-Year Treasury", "DGS1"),
   ("5-Year Treasury", "DGS5"),
   ("10-Year Treasury", "DGS10"),
   ("30-Year Treasury", "DGS30")]

/-- `get_fred_rate(_fred_client, series_id, date)` (src/app.py lines 42-58):
fetch the window [date-7, date], drop missing values, return the last row as
(rate, actual date); `(None, None)` when the window is empty or the remote
call raises. -/
def get_fred_rate (c : FredClient) (series_id : String) (date : ℤ) : RateResult :=
  let start_date := date - 7
  let end_date := date
  if c.fails then (none, none)
  else
    let data := c.get_series_range series_id start_date end_date
    let clean := dropna data
    match clean.getLast? with
    | some dv => (some dv.2, some dv.1)
    | none => (none, none)

/-- `get_current_fred_rate(_fred_client, series_id)` (src/app.py lines 61-74):
fetch the full history, drop missing values, return the last row as
(rate, actual date); `(None, None)` when nothing remains or the call raises. -/
def get_current_fred_rate (c : FredClient) (series_id : String) : RateResult :=
  if c.fails then (none, none)
  else
    let clean := dropna (c.series series_id)
    match clean.getLast? with
    | some dv => (some dv.2, some dv.1)
    | none => (none, none)

/-- `historical_interest_cost = debt_amount * (historical_rate / 100)`
(src/app.py line 165). -/
def historical_interest_cost (debt_amount historical_rate : ℚ) : ℚ :=
  debt_amount * (historical_rate / 100)

/-- `current_interest_cost = debt_amount * (current_rate / 100)`
(src/app.py line 166). -/
def current_interest_cost (debt_amount current_rate : ℚ) : ℚ :=
  debt_amount * (current_rate / 100)

/-- `additional_cost = current_interest_cost - historical_interest_cost`
(src/app.py line 167). -/
def additional_cost (debt_amount historical_rate current_rate : ℚ) : ℚ :=
  current_interest_cost debt_amount current_rate -
    historical_interest_cost debt_amount historical_rate

/-- `st.selectbox`: the widget yields one of its options, never anything
else; any other string is rejected at the widget boundary. -/
def selectbox (options : List String) (choice : String) : Option String :=
  if choice ∈ options then some choice else none

/-- `st.number_input` with a `min_value`: values below the minimum never
reach the script body; the widget rejects them. -/
def number_input (min_value value : ℚ) : Option ℚ :=
  if value < min_value then none else some value

/-- The app body (src/app.py lines 105-138), instrumented with the list of
series ids passed to the fetch helpers. Widget validation happens first;
an invalid maturity choice or amount yields `none` and an empty call list.
On valid inputs the body converts billions to dollars, fetches the
historical and current rates with the selected series id, and hands all
three to the cost section. -/
def runApp (c : FredClient) (maturity_choice : String) (billions_input : ℚ) :
    Option (RateResult × RateResult × ℚ) × List String :=
  match selectbox (FRED_SERIES.map Prod.fst) maturity_choice with
  | none => (none, [])
  | some selected_maturity_name =>
    match FRED_SERIES.lookup selected_maturity_name with
    | none => (none, [])
    | some selected_series_id =>
      match number_input 1 billions_input with
      | none => (none, [])
      | some debt_amount_billions =>
        let debt_amount := debt_amount_billions * 1000000000
        let hist := get_fred_rate c selected_series_id HISTORICAL_DATE
        let curr := get_current_fred_rate c selected_series_id
        (some (hist, curr, debt_amount), [selected_series_id, selected_series_id])

/-- `@st.cache_data` around `get_fred_rate` (src/app.py line 41): results
are memoised by (series_id, date); a hit returns the stored result without
recomputing, a miss computes and stores. -/
def cached_get_fred_rate (cache : List ((String × ℤ) × RateResult)) (c : FredClient)
    (series_id : String) (date : ℤ) :
    RateResult × List ((String × ℤ) × RateResult) :=
  match cache.lookup (series_id, date) with
  | some r => (r, cache)
  | none =>
    let r := get_fred_rate c series_id date
    (r, ((series_id, date), r) :: cache)

/-- Remote client whose calls fail (network/auth error). -/
def failingClient : FredClient := ⟨fun _ => [], true⟩

/-- Remote client that answers but has no data at all. -/
def emptyClient : FredClient := ⟨fun _ => [], false⟩

/-- Remote client with a small concrete DGS10 history: a missing value on
day 20173, observations 4.17 on 20175 and 4.20 on 20179, and a later
observation 4.50 on 20300. -/
def sampleClient : FredClient :=
  ⟨fun sid => if sid = "DGS10" then
      [(20173, none), (20175, some (417/100)), (20179, some (21/5)), (20300, some (9/2))]
    else [], false⟩

/-! ### Helper lemmas about `dropna` -/

/-- A row survives `dropna` exactly when it sits in the input with a
present value. -/
theorem mem_dropna {l : List Obs} {d : ℤ} {v : ℚ} :
    (d, v) ∈ dropna l ↔ (d, some v) ∈ l := by
  simp only [dropna, List.mem_filterMap]
  constructor
  · rintro ⟨⟨d0, v0⟩, hmem, heq⟩
    cases v0 with
    | none => simp at heq
    | some w =>
      simp only [Option.map_some', Option.some.injEq, Prod.mk.injEq] at heq
      obtain ⟨h1, h2⟩ := heq
      subst h1; subst h2; exact hmem
  · intro h
    exact ⟨(d, some v), h, rfl⟩

/-- `dropna` preserves strictly increasing dates. -/
theorem dropna_sorted {l : List Obs}
    (h : l.Pairwise (fun a b => a.1 < b.1)) :
    (dropna l).Pairwise (fun a b => a.1 < b.1) := by
  refine h.filterMap _ ?_
  rintro ⟨d1, v1⟩ ⟨d2, v2⟩ hlt x hx y hy
  cases v1 with
  | none => simp at hx
  | some w1 =>
    cases v2 with
    | none => simp at hy
    | some w2 =>
      simp only [Option.map_some', Option.mem_def, Option.some.injEq] at hx hy
      subst hx; subst hy; exact hlt

/-- `dropna` keeps something whenever some row has a present value. -/
theorem dropna_ne_nil {l : List Obs} (h : ∃ p ∈ l, p.2.isSome) :
    dropna l ≠ [] := by
  intro hnil
  rw [dropna, List.filterMap_eq_nil_iff] at hnil
  obtain ⟨⟨d, v⟩, hmem, hv⟩ := h
  have := hnil _ hmem
  cases v with
  | none => simp at hv
  | some w => simp at this

/-- In a list with pairwise relation `R`, every element is the last one or
relates to it. -/
theorem getLast_max {α : Type} {R : α → α → Prop} {l : List α} {x : α}
    (hp : l.Pairwise R) (hx : l.getLast? = some x) :
    ∀ y ∈ l, y = x ∨ R y x := by
  obtain ⟨ys, rfl⟩ := List.getLast?_eq_some_iff.mp hx
  intro y hy
  rcases List.mem_append.mp hy with h | h
  · exact Or.inr ((List.pairwise_append.mp hp).2.2 y h x (List.mem_singleton.mpr rfl))
  · exact Or.inl (List.mem_singleton.mp h)

/-- On a date-sorted list with at least one present value, the last row of
`dropna` is a present row of the input with the maximal date among present
rows. -/
theorem dropna_getLast_spec {l : List Obs}
    (hs : l.Pairwise (fun a b => a.1 < b.1))
    (hne : ∃ p ∈ l, p.2.isSome) :
    ∃ d v, (dropna l).getLast? = some (d, v) ∧ (d, some v) ∈ l ∧
      ∀ p ∈ l, p.2.isSome → p.1 ≤ d := by
  have hnil : dropna l ≠ [] := dropna_ne_nil hne
  obtain ⟨⟨d, v⟩, hdv⟩ := Option.isSome_iff_exists.mp (List.getLast?_isSome.mpr hnil)
  refine ⟨d, v, hdv, mem_dropna.mp (List.mem_of_getLast?_eq_some hdv), ?_⟩
  rintro ⟨pd, pv⟩ hp hpsome
  obtain ⟨w, hw⟩ := Option.isSome_iff_exists.mp hpsome
  have hmem : (pd, w) ∈ dropna l := by
    apply mem_dropna.mpr
    rw [← hw]
    exact hp
  rcases getLast_max (dropna_sorted hs) hdv _ hmem with heq | hlt
  · exact le_of_eq (congrArg Prod.fst heq)
  · exact le_of_lt hlt

/-! ### Theorems -/

/-- C1: for every principal and pair of rates (as percentages), the cost
calculator returns historicalAnnualCost = principal * historicalRate / 100,
currentAnnualCost = principal * currentRate / 100, and additionalAnnualCost
= currentAnnualCost - historicalAnnualCost. -/
theorem cost_calculator_formulas (principal historicalRate currentRate : ℚ) :
    historical_interest_cost principal historicalRate = principal * historicalRate / 100 ∧
    current_interest_cost principal currentRate = principal * currentRate / 100 ∧
    additional_cost principal historicalRate currentRate =
      current_interest_cost principal currentRate -
        historical_interest_cost principal historicalRate := by
  refine ⟨?_, ?_, rfl⟩ <;>
    · simp only [historical_interest_cost, current_interest_cost]; ring

/-- C7: with historical rate 4.20%, current rate 4.50% and principal
$100,000,000,000, the calculator returns $4,200,000,000, $4,500,000,000 and
$300,000,000. -/
theorem scenario_dgs10_costs :
    historical_interest_cost 100000000000 (21/5) = 4200000000 ∧
    current_interest_cost 100000000000 (9/2) = 4500000000 ∧
    additional_cost 100000000000 (21/5) (9/2) = 300000000 := by
  refine ⟨?_, ?_, ?_⟩ <;>
    norm_num [historical_interest_cost, current_interest_cost, additional_cost]

/-- C6 counterexample: at principal 0 (allowed by the claim, which only
assumes principal ≥ 0), historical rate 0 and current rate 1, the current
rate exceeds the historical rate yet the additional cost is 0, not
positive, so the sign of the additional cost does not equal the sign of
rate_c - rate_h. -/
theorem additional_cost_sign_fails_at_zero_principal :
    (0:ℚ) ≤ 0 ∧ (0:ℚ) < 1 - 0 ∧ ¬ 0 < additional_cost 0 0 1 := by
  refine ⟨le_refl 0, by norm_num, ?_⟩
  norm_num [additional_cost, current_interest_cost, historical_interest_cost]

/-- C2: when the fetched data contains at least one non-null observation
(in the window [target-7, target] for the point-in-time resolver, anywhere
for the current resolver), each resolver discards nulls and returns the
remaining observation with the latest date together with its true date. -/
theorem resolver_returns_latest_nonnull (c : FredClient) (sid : String) (t : ℤ)
    (hok : c.fails = false)
    (hsorted : (c.series sid).Pairwise (fun a b => a.1 < b.1))
    (hwin : ∃ p ∈ c.series sid, (t - 7 ≤ p.1 ∧ p.1 ≤ t) ∧ p.2.isSome)
    (hany : ∃ p ∈ c.series sid, p.2.isSome) :
    (∃ v d, get_fred_rate c sid t = (some v, some d) ∧ (d, some v) ∈ c.series sid ∧
      t - 7 ≤ d ∧ d ≤ t ∧
      ∀ p ∈ c.series sid, t - 7 ≤ p.1 → p.1 ≤ t → p.2.isSome → p.1 ≤ d) ∧
    (∃ v d, get_current_fred_rate c sid = (some v, some d) ∧ (d, some v) ∈ c.series sid ∧
      ∀ p ∈ c.series sid, p.2.isSome → p.1 ≤ d) := by
  constructor
  · have hLsorted : (c.get_series_range sid (t - 7) t).Pairwise (fun a b => a.1 < b.1) :=
      hsorted.filter _
    have hLne : ∃ p ∈ c.get_series_range sid (t - 7) t, p.2.isSome := by
      obtain ⟨p, hp, ⟨h1, h2⟩, hsome⟩ := hwin
      refine ⟨p, ?_, hsome⟩
      rw [FredClient.get_series_range]
      exact List.mem_filter.mpr ⟨hp, by simp [h1, h2]⟩
    obtain ⟨d, v, hlast, hmem, hmax⟩ := dropna_getLast_spec hLsorted hLne
    rw [FredClient.get_series_range] at hmem
    have hmem2 := List.mem_filter.mp hmem
    have hbounds := hmem2.2
    simp only [Bool.and_eq_true, decide_eq_true_eq] at hbounds
    refine ⟨v, d, ?_, hmem2.1, hbounds.1, hbounds.2, ?_⟩
    · simp [get_fred_rate, hok, hlast]
    · intro p hp h1 h2 hsome
      refine hmax p ?_ hsome
      rw [FredClient.get_series_range]
      exact List.mem_filter.mpr ⟨hp, by simp [h1, h2]⟩
  · obtain ⟨d, v, hlast, hmem, hmax⟩ := dropna_getLast_spec hsorted hany
    exact ⟨v, d, by simp [get_current_fred_rate, hok, hlast], hmem, hmax⟩

/-- C2 witness: on a concrete sorted DGS10 history the point-in-time
resolver at 20179 returns 4.20 dated 20179 and the current resolver
returns 4.50 dated 20300, each maximal among the present rows considered. -/
theorem resolver_returns_latest_nonnull_witness :
    sampleClient.fails = false ∧
    (sampleClient.series "DGS10").Pairwise (fun a b => a.1 < b.1) ∧
    (∃ p ∈ sampleClient.series "DGS10",
      ((20179 : ℤ) - 7 ≤ p.1 ∧ p.1 ≤ 20179) ∧ p.2.isSome) ∧
    (∃ p ∈ sampleClient.series "DGS10", p.2.isSome) ∧
    ((∃ v d, get_fred_rate sampleClient "DGS10" 20179 = (some v, some d) ∧
        (d, some v) ∈ sampleClient.series "DGS10" ∧
        (20179 : ℤ) - 7 ≤ d ∧ d ≤ 20179 ∧
        ∀ p ∈ sampleClient.series "DGS10",
          (20179 : ℤ) - 7 ≤ p.1 → p.1 ≤ 20179 → p.2.isSome → p.1 ≤ d) ∧
      (∃ v d, get_current_fred_rate sampleClient "DGS10" = (some v, some d) ∧
        (d, some v) ∈ sampleClient.series "DGS10" ∧
        ∀ p ∈ sampleClient.series "DGS10", p.2.isSome → p.1 ≤ d)) :=
  ⟨rfl, by decide, by decide, by decide,
    resolver_returns_latest_nonnull sampleClient "DGS10" 20179 rfl
      (by decide) (by decide) (by decide)⟩

/-- C3: whenever the point-in-time resolver returns an observation date,
that date is at most the requested target date. -/
theorem resolver_date_le_target (c : FredClient) (sid : String) (t d : ℤ)
    (h : (get_fred_rate c sid t).2 = some d) : d ≤ t := by
  cases hf : c.fails with
  | true => simp [get_fred_rate, hf] at h
  | false =>
    simp only [get_fred_rate, hf] at h
    cases hlast : (dropna (c.get_series_range sid (t - 7) t)).getLast? with
    | none => simp [hlast] at h
    | some dv =>
      obtain ⟨d0, v0⟩ := dv
      simp only [hlast, Bool.false_eq_true, if_false] at h
      have hd0 : d0 = d := by simpa using h
      have hm : (d0, some v0) ∈ c.get_series_range sid (t - 7) t :=
        mem_dropna.mp (List.mem_of_getLast?_eq_some hlast)
      rw [FredClient.get_series_range] at hm
      have hb := (List.mem_filter.mp hm).2
      simp only [Bool.and_eq_true, decide_eq_true_eq] at hb
      omega

/-- C3 witness: at the concrete history, the resolver's returned date
20179 is at most the target 20179. -/
theorem resolver_date_le_target_witness :
    (get_fred_rate sampleClient "DGS10" 20179).2 = some 20179 ∧ (20179 : ℤ) ≤ 20179 :=
  ⟨by decide, resolver_date_le_target sampleClient "DGS10" 20179 20179 (by decide)⟩

/-- C4: when the remote call succeeds but every observation in the window
[target-7, target] is missing (or there are none at all), the point-in-time
resolver returns (None, None) rather than any fabricated rate. -/
theorem resolver_notfound_on_empty_window (c : FredClient) (sid : String) (t : ℤ)
    (hok : c.fails = false)
    (hnull : ∀ p ∈ c.series sid, t - 7 ≤ p.1 → p.1 ≤ t → p.2 = none) :
    get_fred_rate c sid t = (none, none) := by
  have hempty : dropna (c.get_series_range sid (t - 7) t) = [] := by
    rw [dropna, List.filterMap_eq_nil_iff]
    rintro ⟨d0, v0⟩ hmem
    rw [FredClient.get_series_range] at hmem
    have h2 := List.mem_filter.mp hmem
    have h3 := h2.2
    simp only [Bool.and_eq_true, decide_eq_true_eq] at h3
    have hv : v0 = none := hnull _ h2.1 h3.1 h3.2
    simp [hv]
  simp [get_fred_rate, hok, hempty]

/-- C4 witness: with a source answering but holding no rows at all, the
resolver returns (None, None). -/
theorem resolver_notfound_on_empty_window_witness :
    emptyClient.fails = false ∧
    get_fred_rate emptyClient "DGS10" 20179 = (none, none) :=
  ⟨rfl, resolver_notfound_on_empty_window emptyClient "DGS10" 20179 rfl
    (by intro p hp; simp [emptyClient] at hp)⟩

/-- C10: each resolver always returns a coherent pair: either both the
value and the date are present, or both are absent. -/
theorem resolver_coherent_pair (c : FredClient) (sid : String) (t : ℤ) :
    (get_fred_rate c sid t = (none, none) ∨
      ∃ v d, get_fred_rate c sid t = (some v, some d)) ∧
    (get_current_fred_rate c sid = (none, none) ∨
      ∃ v d, get_current_fred_rate c sid = (some v, some d)) := by
  constructor
  · cases hf : c.fails with
    | true => exact Or.inl (by simp [get_fred_rate, hf])
    | false =>
      cases hlast : (dropna (c.get_series_range sid (t - 7) t)).getLast? with
      | none => exact Or.inl (by simp [get_fred_rate, hf, hlast])
      | some dv => exact Or.inr ⟨dv.2, dv.1, by simp [get_fred_rate, hf, hlast]⟩
  · cases hf : c.fails with
    | true => exact Or.inl (by simp [get_current_fred_rate, hf])
    | false =>
      cases hlast : (dropna (c.series sid)).getLast? with
      | none => exact Or.inl (by simp [get_current_fred_rate, hf, hlast])
      | some dv => exact Or.inr ⟨dv.2, dv.1, by simp [get_current_fred_rate, hf, hlast]⟩

/-- C5 counterexample: a remote failure and an empty window produce the
very same (None, None) result, so the caller cannot distinguish a remote
fetch failure from an absent observation — there is no distinct
RemoteFetchError kind in the returned value. -/
theorem remote_error_conflated_with_notfound :
    get_fred_rate failingClient "DGS10" 20179 =
      get_fred_rate emptyClient "DGS10" 20179 ∧
    get_fred_rate failingClient "DGS10" 20179 = (none, none) :=
  ⟨rfl, rfl⟩

/-- C5 amended: the code collapses remote failures into the same
(None, None) value as NotFound: whenever the remote call raises, both
resolvers return (None, None), identical to the empty-window result, so
the caller cannot distinguish the two failure classes from the result. -/
theorem remote_error_returns_none (c : FredClient) (sid : String) (t : ℤ)
    (hfail : c.fails = true) :
    get_fred_rate c sid t = (none, none) ∧
    get_current_fred_rate c sid = (none, none) := by
  constructor <;> simp [get_fred_rate, get_current_fred_rate, hfail]

/-- C5 amended witness: at the failing client both resolvers return
(None, None). -/
theorem remote_error_returns_none_witness :
    failingClient.fails = true ∧
    (get_fred_rate failingClient "DGS10" 20179 = (none, none) ∧
      get_current_fred_rate failingClient "DGS10" = (none, none)) :=
  ⟨rfl, remote_error_returns_none failingClient "DGS10" 20179 rfl⟩

/-- C6 amended: for strictly positive principal, the additional annual
cost is positive exactly when the current rate exceeds the historical
rate, negative exactly when it is lower, and zero exactly when they are
equal. (At principal 0 the additional cost is 0 whatever the rates, so
the sign correspondence claimed for all principal ≥ 0 holds only for
principal > 0.) -/
theorem additional_cost_sign (principal rate_h rate_c : ℚ)
    (hp : 0 < principal) :
    (0 < additional_cost principal rate_h rate_c ↔ rate_h < rate_c) ∧
    (additional_cost principal rate_h rate_c < 0 ↔ rate_c < rate_h) ∧
    (additional_cost principal rate_h rate_c = 0 ↔ rate_h = rate_c) := by
  have key : additional_cost principal rate_h rate_c
      = principal * (rate_c - rate_h) / 100 := by
    simp only [additional_cost, current_interest_cost, historical_interest_cost]
    ring
  have h100 : (0:ℚ) < 100 := by norm_num
  rw [key]
  refine ⟨?_, ?_, ?_⟩
  · rw [lt_div_iff₀ h100, zero_mul]
    constructor
    · intro h; nlinarith
    · intro h; have hs := sub_pos.mpr h; nlinarith
  · rw [div_lt_iff₀ h100, zero_mul]
    constructor
    · intro h; nlinarith
    · intro h; have hs : rate_c - rate_h < 0 := by linarith
      nlinarith
  · rw [div_eq_zero_iff]
    constructor
    · rintro (h | h)
      · rcases mul_eq_zero.mp h with h1 | h1
        · exact absurd h1 (ne_of_gt hp)
        · exact (sub_eq_zero.mp h1).symm
      · norm_num at h
    · intro h
      left
      rw [h]
      ring

/-- C6 amended witness: at principal 1, rates 1 and 2, the sign
trichotomy holds. -/
theorem additional_cost_sign_witness :
    (0:ℚ) < 1 ∧
    ((0 < additional_cost 1 1 2 ↔ (1:ℚ) < 2) ∧
     (additional_cost 1 1 2 < 0 ↔ (2:ℚ) < 1) ∧
     (additional_cost 1 1 2 = 0 ↔ (1:ℚ) = 2)) :=
  ⟨by norm_num, additional_cost_sign 1 1 2 (by norm_num)⟩

/-- C8: against an unchanged data source, the cached point-in-time
resolver is idempotent: starting from any cache whose entries agree with
the resolver on that source, the first and the repeated call both return
exactly the uncached resolver's value — the cache never changes the
returned value. -/
theorem cached_resolver_idempotent (cache : List ((String × ℤ) × RateResult))
    (c : FredClient) (sid : String) (t : ℤ)
    (hcoh : ∀ k r, cache.lookup k = some r → r = get_fred_rate c k.1 k.2) :
    (cached_get_fred_rate cache c sid t).1 = get_fred_rate c sid t ∧
    (cached_get_fred_rate (cached_get_fred_rate cache c sid t).2 c sid t).1 =
      get_fred_rate c sid t := by
  cases hl : cache.lookup (sid, t) with
  | some r =>
    have hr : r = get_fred_rate c sid t := hcoh (sid, t) r hl
    exact ⟨by simp [cached_get_fred_rate, hl, hr],
      by simp [cached_get_fred_rate, hl, hr]⟩
  | none =>
    exact ⟨by simp [cached_get_fred_rate, hl],
      by simp [cached_get_fred_rate, hl]⟩

/-- C8 witness: starting from the empty cache against the concrete
history, both calls return the resolver's value. -/
theorem cached_resolver_idempotent_witness :
    (∀ k r, ([] : List ((String × ℤ) × RateResult)).lookup k = some r →
      r = get_fred_rate sampleClient k.1 k.2) ∧
    ((cached_get_fred_rate [] sampleClient "DGS10" 20179).1 =
        get_fred_rate sampleClient "DGS10" 20179 ∧
      (cached_get_fred_rate (cached_get_fred_rate [] sampleClient "DGS10" 20179).2
          sampleClient "DGS10" 20179).1 =
        get_fred_rate sampleClient "DGS10" 20179) :=
  ⟨by intro k r h; simp at h,
   cached_resolver_idempotent [] sampleClient "DGS10" 20179
     (by intro k r h; simp at h)⟩

/-- A successful catalog lookup yields one of the catalog's series ids. -/
theorem lookup_mem_snd {l : List (String × String)} {a b : String}
    (h : l.lookup a = some b) : b ∈ l.map Prod.snd := by
  induction l with
  | nil => simp at h
  | cons p tl ih =>
    obtain ⟨k, v⟩ := p
    rw [List.lookup_cons] at h
    cases hek : a == k with
    | true =>
      rw [hek] at h
      simp only [Option.some.injEq] at h
      subst h
      simp
    | false =>
      rw [hek] at h
      simpa using Or.inr (ih h)

/-- C9: fetches only happen on validated inputs: every series id passed
to a fetch helper comes from the catalog, a fetch happens only when the
chosen maturity is one of the widget's options and the amount is at least
the widget minimum of 1 billion, and the principal handed to the cost
section is nonnegative. -/
theorem no_fetch_on_invalid_input (c : FredClient) (choice : String) (b : ℚ) :
    ((runApp c choice b).2 ≠ [] →
      choice ∈ FRED_SERIES.map Prod.fst ∧ 1 ≤ b) ∧
    (∀ sid ∈ (runApp c choice b).2, sid ∈ FRED_SERIES.map Prod.snd) ∧
    (∀ res, (runApp c choice b).1 = some res → 0 ≤ res.2.2) := by
  by_cases hc : choice ∈ FRED_SERIES.map Prod.fst
  · cases hlk : FRED_SERIES.lookup choice with
    | none =>
      refine ⟨?_, ?_, ?_⟩ <;>
        simp [runApp, selectbox, hc, hlk]
    | some sid =>
      by_cases hb : b < 1
      · refine ⟨?_, ?_, ?_⟩ <;>
          simp [runApp, selectbox, number_input, hc, hlk, hb]
      · have h1b : (1:ℚ) ≤ b := le_of_not_lt hb
        refine ⟨fun _ => ⟨hc, h1b⟩, ?_, ?_⟩
        · intro s hs
          simp only [runApp, selectbox, number_input, hc, if_true, hlk, hb,
            if_false, if_neg (not_lt.mpr h1b)] at hs
          simp only [List.mem_cons, List.not_mem_nil, or_false] at hs
          rcases hs with h | h <;>
            · subst h; exact lookup_mem_snd hlk
        · intro res hres
          simp only [runApp, selectbox, number_input, hc, if_true, hlk,
            if_neg (not_lt.mpr h1b)] at hres
          simp only [Option.some.injEq] at hres
          subst hres
          have h0 : (0:ℚ) ≤ b := le_trans (by norm_num) h1b
          have hm : (0:ℚ) ≤ b * 1000000000 := mul_nonneg h0 (by norm_num)
          simpa using hm
  · refine ⟨?_, ?_, ?_⟩ <;>
      simp [runApp, selectbox, hc]

/-- C9 witness: on the valid concrete input (10-Year Treasury, 100
billion) fetches do occur, and the theorem yields that the choice is an
option and the amount is at least 1. -/
theorem no_fetch_on_invalid_input_witness :
    (runApp emptyClient "10-Year Treasury" 100).2 ≠ [] ∧
    ("10-Year Treasury" ∈ FRED_SERIES.map Prod.fst ∧ (1:ℚ) ≤ 100) :=
  ⟨by decide,
   (no_fetch_on_invalid_input emptyClient "10-Year Treasury" 100).1 (by decide)⟩

end InterestApp
